import Mathlib

/-!
Shallow embedding of Serjlee/jwk-go (src/jwk.go), a client-side cache for a
remote JSON Web Key Store.  Go machine types are modelled as follows:

* `time.Time` and `time.Duration` are `Int` (nanoseconds); `time.Second` and
  `time.Hour` are the constants below, exactly as in Go's time package.
* Go's `map[string]Key` is modelled as the function `String → Option Key`
  with pointwise insertion (Go map assignment overwrites).
* The HTTP world (the response delivered by `Client.Get` and the outcome of
  JSON-decoding its body) is an explicit input, `World`; the wall-clock
  reads at the freshness check and at snapshot construction are likewise
  explicit inputs (`now` parameters).
* Fallible Go functions return `Except GoError _`; `panic` is modelled by
  `Option` (`none` = abort).  The mutex is not modelled: each embedded
  operation is one atomic state transition of the `JSONWebKeys` record.
-/

namespace Jwk

/-- One nanosecond-denominated second, as in Go's `time.Second`. -/
def second : Int := 1000000000

/-- Go's `time.Hour` in nanoseconds. -/
def hour : Int := 3600 * second

/-- Key maps a JSON Web Key to a struct (src/jwk.go `Key`). -/
structure Key where
  Alg : String
  Kty : String
  Kid : String
  Use : String
  N : String
  E : String
  X5c : List String
  deriving DecidableEq

/-- jwks maps a JSON Web Key Store to a struct (src/jwk.go `jwks`). -/
structure Jwks where
  Keys : List Key
  deriving DecidableEq

/-- Go `map[string]Key`, as a lookup function. -/
def KeyMap : Type := String → Option Key

/-- The empty Go map `map[string]Key{}`. -/
def KeyMap.empty : KeyMap := fun _ => none

/-- Go map assignment `m[k] = v` (overwrites an existing entry). -/
def KeyMap.insert (m : KeyMap) (k : String) (v : Key) : KeyMap :=
  fun x => if x = k then some v else m x

/-- Certs holds a map of KeyID-RSA public key and their expiration time
(src/jwk.go `Certs`). -/
structure Certs where
  Keys : KeyMap
  Expiry : Int

/-- The subset of `http.Client` configuration the code touches: the timeout
set when a default client is built. -/
structure HTTPClient where
  timeout : Int
  deriving DecidableEq

/-- The part of an HTTP response `fetchJWKS` reads: the `cache-control`
header (`""` when absent, as Go's `Header.Get` returns) and the outcome of
JSON-decoding the body into a `jwks` (the error carries Go's message). -/
structure HTTPResponse where
  cacheControl : String
  body : Except String Jwks

/-- The external world one refresh interacts with: what `Client.Get`
returns (a transport error message, or a response), and the wall-clock
value `time.Now()` yields inside `parseCerts`. -/
structure World where
  getResult : Except String HTTPResponse
  parseNow : Int

/-- Errors the package can return.  `getErr` wraps a transport failure from
`Client.Get`, `numErr` a `strconv.ParseInt` failure (carrying its input),
`jsonErr` a JSON decode failure; `keyNotFound` is the
`errors.New("Unable to find the appropriate key.")` value in `GetKey`. -/
inductive GoError where
  | getErr (msg : String)
  | numErr (input : String)
  | jsonErr (msg : String)
  | keyNotFound
  deriving DecidableEq

/-- JSONWebKeys fetches and caches RSA public keys (src/jwk.go
`JSONWebKeys`); the mutex field is represented by the atomicity of the
embedded transitions. -/
structure JSONWebKeys where
  JWKURL : String
  DefaultCacheAge : Int
  Client : Option HTTPClient
  cachedCerts : Option Certs

/-- Empty tells if the struct is empty (src/jwk.go `Key.Empty`). -/
def Key.Empty (k : Key) : Bool := k.Alg = ""

/-- PEM adds the PEM headers to the given key (src/jwk.go `Key.PEM`). -/
def Key.PEM (k : Key) : String :=
  if k.X5c.length < 1 then ""
  else "-----BEGIN CERTIFICATE-----\n" ++ k.X5c.headI ++ "\n-----END CERTIFICATE-----"

/-- withPEMHeaders adds the PEM headers to the given key (src/jwk.go
`withPEMHeaders`). -/
def withPEMHeaders (key : String) : String :=
  "-----BEGIN CERTIFICATE-----\n" ++ key ++ "\n-----END CERTIFICATE-----"

/-- parseCerts looks for RSA public keys (src/jwk.go `parseCerts`): the Go
loop `for _, key := range res.Keys { if key.Use == "sig" && key.Kty == "RSA"
{ keys[key.Kid] = key } }` as a left fold.  `now` is the value `time.Now()`
reads at snapshot construction.  The Go function's error result is always
`nil`, so the embedding returns `Certs` directly. -/
def parseCerts (res : Jwks) (cacheAge : Int) (now : Int) : Certs :=
  { Keys := res.Keys.foldl
      (fun m key =>
        if key.Use = "sig" ∧ key.Kty = "RSA" then m.insert key.Kid key else m)
      KeyMap.empty
    Expiry := now + cacheAge }

/-- The maximal leading run of ASCII digits of a character list: what the
greedy subpattern `([0-9]*)` captures right after the literal `max-age=`. -/
def leadingDigits : List Char → List Char
  | [] => []
  | c :: cs => if c.isDigit then c :: leadingDigits cs else []

/-- `matchLit pat s` succeeds with the remainder of `s` when `pat` is an
initial segment of `s` (literal regex matching). -/
def matchLit : List Char → List Char → Option (List Char)
  | [], s => some s
  | _ :: _, [] => none
  | p :: ps, c :: cs => if p = c then matchLit ps cs else none

/-- The first (leftmost) match of the regex `max-age=([0-9]*)`: the capture
of group 1, or `none` when the pattern does not occur.  This is what
`regexp.FindAllStringSubmatch(cacheControl, -1)` yields as `match[0][1]` in
src/jwk.go lines 198-202 (the group `[0-9]*` may capture the empty
string). -/
def findMaxAge : List Char → Option (List Char)
  | [] => none
  | c :: cs =>
    match matchLit "max-age=".toList (c :: cs) with
    | some rest => some (leadingDigits rest)
    | none => findMaxAge cs

/-- Value of a digit string (most significant first). -/
def digitsToNat (l : List Char) : Nat :=
  l.foldl (fun acc c => acc * 10 + (c.toNat - 48)) 0

/-- Go's `strconv.ParseInt(s, 10, 64)` restricted to the strings this code
passes it: fails on the empty string (ErrSyntax), on any non-digit
character (ErrSyntax), and on values above `2^63 - 1` (ErrRange); the
`GoError.numErr` carries the offending input as `*strconv.NumError` does. -/
def parseInt64 (l : List Char) : Except GoError Int :=
  if l = [] then .error (.numErr (String.mk l))
  else if l.all Char.isDigit then
    if digitsToNat l ≤ 2 ^ 63 - 1 then .ok (digitsToNat l)
    else .error (.numErr (String.mk l))
  else .error (.numErr (String.mk l))

/-- The cache-age computation of `fetchJWKS` (src/jwk.go lines 196-210),
given the already-defaulted `DefaultCacheAge` and the `cache-control`
header value: keep the default unless the header is non-empty and the
regex matches, in which case `ParseInt` decides between an error and
`time.Duration(maxAgeInt) * time.Second`. -/
def computeCacheAge (defaultAge : Int) (cacheControl : String) : Except GoError Int :=
  if cacheControl.length > 0 then
    match findMaxAge cacheControl.toList with
    | some digits =>
      match parseInt64 digits with
      | .error e => .error e
      | .ok v => .ok (v * second)
    | none => .ok defaultAge
  else .ok defaultAge

/-- fetchJWKS fetches and parses the JWKS resource (src/jwk.go
`fetchJWKS`).  Returns the pair `(res, cacheAge)` or the error, together
with the mutated receiver: the method writes `j.Client` (before the GET)
and `j.DefaultCacheAge` (after a successful GET) on the way. -/
def fetchJWKS (j : JSONWebKeys) (w : World) :
    Except GoError (Jwks × Int) × JSONWebKeys :=
  let j1 : JSONWebKeys :=
    if j.Client = none then { j with Client := some ⟨10 * second⟩ } else j
  match w.getResult with
  | .error msg => (.error (.getErr msg), j1)
  | .ok resp =>
    let j2 : JSONWebKeys :=
      if j1.DefaultCacheAge = 0 then { j1 with DefaultCacheAge := 10 * hour } else j1
    match computeCacheAge j2.DefaultCacheAge resp.cacheControl with
    | .error e => (.error e, j2)
    | .ok cacheAge =>
      match resp.body with
      | .error msg => (.error (.jsonErr msg), j2)
      | .ok res => (.ok (res, cacheAge), j2)

/-- Result of one `GetKeys` call: the Go return value, the state of the
receiver afterwards, and whether the refresh path ran (i.e. whether
`fetchJWKS` was invoked at all). -/
structure GetKeysResult where
  result : Except GoError Certs
  state : JSONWebKeys
  fetched : Bool

/-- The fall-through tail of `GetKeys` (src/jwk.go lines 148-164): fetch,
parse, install the new snapshot; on error return it with the receiver as
`fetchJWKS` left it. -/
def refreshKeys (j : JSONWebKeys) (w : World) : GetKeysResult :=
  match fetchJWKS j w with
  | (.error e, j') => ⟨.error e, j', true⟩
  | (.ok (res, cacheAge), j') =>
    let parsedCerts := parseCerts res cacheAge w.parseNow
    ⟨.ok parsedCerts, { j' with cachedCerts := some parsedCerts }, true⟩

/-- GetKeys returns RSA public keys from the JWK store (src/jwk.go
`GetKeys`).  `now` is the `time.Now()` read at the freshness check
(`time.Now().Before(certs.Expiry)` is `now < certs.Expiry`); the refresh
path reads the world `w`. -/
def GetKeys (j : JSONWebKeys) (now : Int) (w : World) : GetKeysResult :=
  match j.cachedCerts with
  | some certs =>
    if now < certs.Expiry then ⟨.ok certs, j, false⟩ else refreshKeys j w
  | none => refreshKeys j w

/-- GetKey finds a matching cert for the given key id (src/jwk.go
`GetKey`). -/
def GetKey (j : JSONWebKeys) (keyId : String) (now : Int) (w : World) :
    Except GoError Key × JSONWebKeys :=
  let r := GetKeys j now w
  match r.result with
  | .error e => (.error e, r.state)
  | .ok certs =>
    match certs.Keys keyId with
    | none => (.error .keyNotFound, r.state)
    | some cert => (.ok cert, r.state)

/-- Value of one character of the base64url alphabet (`A-Z a-z 0-9 - _`),
`none` for any other character. -/
def b64Val (c : Char) : Option Nat :=
  if 'A' ≤ c ∧ c ≤ 'Z' then some (c.toNat - 65)
  else if 'a' ≤ c ∧ c ≤ 'z' then some (c.toNat - 97 + 26)
  else if '0' ≤ c ∧ c ≤ '9' then some (c.toNat - 48 + 52)
  else if c = '-' then some 62
  else if c = '_' then some 63
  else none

/-- Decode one final base64 quantum of 2, 3 or 4 characters into 1, 2 or 3
bytes.  A single leftover character is invalid (Go's
`CorruptInputError`); as in Go's non-strict decoder, unused trailing bits
are discarded, not checked. -/
def b64Chunk : List Char → Option (List Nat)
  | [a, b] => do
    let va ← b64Val a; let vb ← b64Val b
    pure [(va * 64 + vb) / 16]
  | [a, b, c] => do
    let va ← b64Val a; let vb ← b64Val b; let vc ← b64Val c
    let bits := (va * 64 + vb) * 64 + vc
    pure [bits / 1024, bits / 4 % 256]
  | [a, b, c, d] => do
    let va ← b64Val a; let vb ← b64Val b; let vc ← b64Val c; let vd ← b64Val d
    let bits := ((va * 64 + vb) * 64 + vc) * 64 + vd
    pure [bits / 65536, bits / 256 % 256, bits % 256]
  | _ => none

/-- Quantum-by-quantum decoding of a base64url character stream already
free of newlines: full 4-character quanta, then one final quantum of 1
(invalid), 2 or 3 characters. -/
def decodeQuanta : List Char → Option (List Nat)
  | [] => some []
  | [a] => b64Chunk [a]
  | [a, b] => b64Chunk [a, b]
  | [a, b, c] => b64Chunk [a, b, c]
  | [a, b, c, d] => b64Chunk [a, b, c, d]
  | a :: b :: c :: d :: rest => do
    let front ← b64Chunk [a, b, c, d]
    let back ← decodeQuanta rest
    pure (front ++ back)

/-- Go's base64 decoder skips carriage returns and newlines wherever they
occur in the input (the documented "New line characters (\r and \n) are
ignored" behavior of `decodeQuantum`). -/
def stripNewlines (l : List Char) : List Char :=
  l.filter (fun c => c != '\n' && c != '\r')

/-- Go's `base64.RawURLEncoding.DecodeString`: unpadded base64url over the
`-`/`_` alphabet, with `\r` and `\n` ignored anywhere in the input;
`none` models the decode error. -/
def rawURLDecode (l : List Char) : Option (List Nat) :=
  decodeQuanta (stripNewlines l)

/-- Big-endian interpretation of a byte list, as Go's
`new(big.Int).SetBytes`. -/
def bytesToNat (l : List Nat) : Nat :=
  l.foldl (fun acc b => acc * 256 + b) 0

/-- Go's `big.Int.Int64()` on a non-negative value: the low 64 bits,
reinterpreted as a two's-complement signed 64-bit integer (the stdlib
implementation takes the low word of the magnitude). -/
def int64ofLow64 (v : Nat) : Int :=
  if v % 2 ^ 64 < 2 ^ 63 then ((v % 2 ^ 64 : Nat) : Int)
  else ((v % 2 ^ 64 : Nat) : Int) - 2 ^ 64

/-- The `rsa.PublicKey` fields the code builds: `N` a big integer, `E` a
Go `int` (64-bit here, as on the supported platforms). -/
structure RSAPublicKey where
  N : Nat
  E : Int
  deriving DecidableEq

/-- RSA returns the key as an rsa.PublicKey (src/jwk.go `Key.RSA`): decode
`n` and `e` with `base64.RawURLEncoding`, panicking (here: `none`) on
either decode error, then `N = SetBytes(n)` and
`E = int(SetBytes(e).Int64())`. -/
def Key.RSA (k : Key) : Option RSAPublicKey :=
  match rawURLDecode k.N.toList with
  | none => none
  | some nBytes =>
    match rawURLDecode k.E.toList with
    | none => none
    | some eBytes =>
      some { N := bytesToNat nBytes, E := int64ofLow64 (bytesToNat eBytes) }

/-- The cache-miss condition of `GetKeys`: no snapshot, or the freshness
check `time.Now().Before(certs.Expiry)` fails. -/
def cacheStale (j : JSONWebKeys) (now : Int) : Prop :=
  ∀ c, j.cachedCerts = some c → ¬ now < c.Expiry

/-- Specification-side description of one map entry of `parseCerts`'s
output: the last element of the list whose `use` is `"sig"`, whose `kty`
is `"RSA"` and whose `kid` is the probed one (the survivor of
last-write-wins insertion).  Written from the spec's words, to be compared
with the fold taken from the source. -/
def lastSigRSA (kid : String) : List Key → Option Key
  | [] => none
  | k :: rest =>
    match lastSigRSA kid rest with
    | some r => some r
    | none =>
      if k.Use = "sig" ∧ k.Kty = "RSA" ∧ k.Kid = kid then some k else none

/-- Example RSA signing key with kid "A" (spec section 8's mixed list). -/
def exKeyA : Key :=
  { Alg := "RS256", Kty := "RSA", Kid := "A", Use := "sig"
    N := "AQAB", E := "AQAB", X5c := ["AVERYREALKEY"] }

/-- Example EC signing key with kid "B": filtered out by `parseCerts`. -/
def exKeyB : Key :=
  { Alg := "ES256", Kty := "EC", Kid := "B", Use := "sig"
    N := "", E := "", X5c := [] }

/-- Example RSA encryption key with kid "C": filtered out by
`parseCerts`. -/
def exKeyC : Key :=
  { Alg := "RS256", Kty := "RSA", Kid := "C", Use := "enc"
    N := "AQAB", E := "AQAB", X5c := [] }

/-- The mixed key list of spec section 8. -/
def exJwks : Jwks := { Keys := [exKeyA, exKeyB, exKeyC] }

/-- A concrete snapshot holding `exKeyA` under "A", expiring at instant
10. -/
def exCerts : Certs :=
  { Keys := KeyMap.empty.insert "A" exKeyA, Expiry := 10 }

/-- A client whose cache holds `exCerts`. -/
def exClient : JSONWebKeys :=
  { JWKURL := "https://example.test/.well-known/jwks.json"
    DefaultCacheAge := 3600 * second
    Client := some ⟨10 * second⟩
    cachedCerts := some exCerts }

/-- A world in which the HTTP GET fails with a transport error. -/
def exWorldGetFail : World :=
  { getResult := .error "dial tcp: connection refused", parseNow := 0 }

/-- A world delivering an empty key list with no cache-control header. -/
def exWorldOk : World :=
  { getResult := .ok { cacheControl := "", body := .ok { Keys := [] } }
    parseNow := 42 }

/-- A fresh client: no cached snapshot, no HTTP client, zero default
cache age. -/
def exFreshClient : JSONWebKeys :=
  { JWKURL := "https://example.test/.well-known/jwks.json"
    DefaultCacheAge := 0
    Client := none
    cachedCerts := none }

/-- A key whose `e` field carries an embedded newline, which Go's base64
decoder skips: it decodes like `AQAB`. -/
def exKeyNewlineE : Key :=
  { Alg := "RS256", Kty := "RSA", Kid := "nl", Use := "sig"
    N := "AQAB", E := "AQ\nAB", X5c := [] }

/-- A key whose `e` field decodes to 2^63, one past the largest int64. -/
def exKeyBigE : Key :=
  { Alg := "RS256", Kty := "RSA", Kid := "big", Use := "sig"
    N := "AQAB", E := "gAAAAAAAAAA", X5c := [] }

/-! ## Helper lemmas (shared) -/

/-- The insertion fold of `parseCerts`, probed at `kid`, yields the last
filtered entry with that `kid`, falling back to the initial map. -/
theorem foldl_sigRSA (kid : String) :
    ∀ (l : List Key) (m : KeyMap),
      l.foldl
        (fun m key =>
          if key.Use = "sig" ∧ key.Kty = "RSA" then m.insert key.Kid key else m)
        m kid
        = match lastSigRSA kid l with
          | some k => some k
          | none => m kid := by
  intro l
  induction l with
  | nil => intro m; rfl
  | cons k rest ih =>
    intro m
    rw [List.foldl_cons, ih]
    cases h : lastSigRSA kid rest with
    | some r => simp only [lastSigRSA, h]
    | none =>
      simp only [lastSigRSA, h]
      by_cases hf : k.Use = "sig" ∧ k.Kty = "RSA"
      · rw [if_pos hf]
        show KeyMap.insert m k.Kid k kid = _
        unfold KeyMap.insert
        by_cases hk : kid = k.Kid
        · rw [if_pos hk, if_pos ⟨hf.1, hf.2, hk.symm⟩]
        · rw [if_neg hk, if_neg (fun hcon => hk hcon.2.2.symm)]
      · rw [if_neg hf, if_neg (fun hcon => hf ⟨hcon.1, hcon.2.1⟩)]

/-- Every entry `lastSigRSA` selects passes the filter and carries the
probed kid. -/
theorem lastSigRSA_props (kid : String) :
    ∀ (l : List Key) (k : Key), lastSigRSA kid l = some k →
      k.Use = "sig" ∧ k.Kty = "RSA" ∧ k.Kid = kid := by
  intro l
  induction l with
  | nil => intro k h; cases h
  | cons hd tl ih =>
    intro k h
    simp only [lastSigRSA] at h
    cases htl : lastSigRSA kid tl with
    | some r =>
      rw [htl] at h
      exact (Option.some.inj h) ▸ ih r htl
    | none =>
      rw [htl] at h
      by_cases hf : hd.Use = "sig" ∧ hd.Kty = "RSA" ∧ hd.Kid = kid
      · rw [if_pos hf] at h
        exact (Option.some.inj h) ▸ hf
      · rw [if_neg hf] at h
        cases h

/-- `fetchJWKS` never touches the `cachedCerts` field. -/
theorem fetchJWKS_cachedCerts (j : JSONWebKeys) (w : World) :
    (fetchJWKS j w).2.cachedCerts = j.cachedCerts := by
  unfold fetchJWKS
  dsimp only
  repeat' split
  all_goals rfl

/-- `parseInt64` never produces the key-not-found error. -/
theorem parseInt64_ne_keyNotFound (l : List Char) :
    parseInt64 l ≠ .error .keyNotFound := by
  unfold parseInt64
  repeat' split
  all_goals simp

/-- `computeCacheAge` never produces the key-not-found error. -/
theorem computeCacheAge_ne_keyNotFound (d : Int) (cc : String) :
    computeCacheAge d cc ≠ .error .keyNotFound := by
  unfold computeCacheAge
  split
  · cases hf : findMaxAge cc.toList with
    | some digits =>
      dsimp only
      cases hp : parseInt64 digits with
      | error e =>
        dsimp only
        intro hcon
        injection hcon with h2
        exact parseInt64_ne_keyNotFound digits (h2 ▸ hp)
      | ok v => simp
    | none => simp
  · simp

/-- Every error `fetchJWKS` returns is a transport, number-parse or JSON
error — never the key-not-found error. -/
theorem fetchJWKS_error_kind (j : JSONWebKeys) (w : World) (e : GoError)
    (h : (fetchJWKS j w).1 = .error e) : e ≠ .keyNotFound := by
  unfold fetchJWKS at h
  dsimp only at h
  cases hg : w.getResult with
  | error msg =>
    rw [hg] at h
    have h2 := Except.error.inj h
    rw [← h2]
    intro hcon
    cases hcon
  | ok resp =>
    rw [hg] at h
    dsimp only at h
    split at h
    · rename_i e2 hca
      have h2 := Except.error.inj h
      rw [← h2]
      intro hcon
      exact computeCacheAge_ne_keyNotFound _ _ (hcon ▸ hca)
    · split at h
      · rename_i msg hbody
        have h2 := Except.error.inj h
        rw [← h2]
        intro hcon
        cases hcon
      · exact absurd h (by simp)

/-- An error result of `refreshKeys` is exactly the error of its
`fetchJWKS` call. -/
theorem refreshKeys_result_error (j : JSONWebKeys) (w : World) (e : GoError)
    (h : (refreshKeys j w).result = .error e) : (fetchJWKS j w).1 = .error e := by
  unfold refreshKeys at h
  rcases hfw : fetchJWKS j w with ⟨r, j2⟩
  rw [hfw] at h
  cases r with
  | error e2 =>
    dsimp only at h
    simpa using h
  | ok p =>
    rcases p with ⟨res, cacheAge⟩
    dsimp only at h
    simp at h

/-- An error result of `GetKeys` is exactly the error of its `fetchJWKS`
call. -/
theorem getKeys_error_from_fetch (j : JSONWebKeys) (now : Int) (w : World) (e : GoError)
    (h : (GetKeys j now w).result = .error e) : (fetchJWKS j w).1 = .error e := by
  unfold GetKeys at h
  cases hc : j.cachedCerts with
  | some c =>
    rw [hc] at h
    dsimp only at h
    split at h
    · simp at h
    · exact refreshKeys_result_error j w e h
  | none =>
    rw [hc] at h
    dsimp only at h
    exact refreshKeys_result_error j w e h

/-- With an absent or expired snapshot, `GetKeys` runs the refresh
tail. -/
theorem getKeys_stale_eq_refresh (j : JSONWebKeys) (now : Int) (w : World)
    (hstale : cacheStale j now) : GetKeys j now w = refreshKeys j w := by
  unfold GetKeys
  cases hcc : j.cachedCerts with
  | none => rfl
  | some c =>
    show (if now < c.Expiry then (⟨.ok c, j, false⟩ : GetKeysResult)
          else refreshKeys j w) = _
    rw [if_neg (hstale c hcc)]

/-- `refreshKeys` passes the `Client` and `DefaultCacheAge` fields through
from the state `fetchJWKS` leaves. -/
theorem refreshKeys_state_fields (j : JSONWebKeys) (w : World) :
    (refreshKeys j w).state.Client = (fetchJWKS j w).2.Client ∧
    (refreshKeys j w).state.DefaultCacheAge = (fetchJWKS j w).2.DefaultCacheAge := by
  unfold refreshKeys
  rcases hfw : fetchJWKS j w with ⟨r, j2⟩
  cases r with
  | error e => exact ⟨rfl, rfl⟩
  | ok p =>
    rcases p with ⟨res, age⟩
    exact ⟨rfl, rfl⟩

/-- The `Client` field after `fetchJWKS`: a nil client is replaced by the
default 10-second-timeout client before the GET, unconditionally. -/
theorem fetchJWKS_client (j : JSONWebKeys) (w : World) :
    (fetchJWKS j w).2.Client
      = if j.Client = none then some ⟨10 * second⟩ else j.Client := by
  unfold fetchJWKS
  dsimp only
  repeat' split
  all_goals simp_all

/-- The `DefaultCacheAge` field is untouched when the GET itself fails. -/
theorem fetchJWKS_defaultCacheAge_err (j : JSONWebKeys) (w : World) (msg : String)
    (h : w.getResult = .error msg) :
    (fetchJWKS j w).2.DefaultCacheAge = j.DefaultCacheAge := by
  unfold fetchJWKS
  rw [h]
  dsimp only
  split <;> rfl

/-- After a successful GET, a zero `DefaultCacheAge` has been replaced by
10 hours, before the max-age parse or the body decode can fail. -/
theorem fetchJWKS_defaultCacheAge_ok (j : JSONWebKeys) (w : World) (resp : HTTPResponse)
    (h : w.getResult = .ok resp) :
    (fetchJWKS j w).2.DefaultCacheAge
      = if j.DefaultCacheAge = 0 then 10 * hour else j.DefaultCacheAge := by
  unfold fetchJWKS
  rw [h]
  dsimp only
  repeat' split
  all_goals simp_all

/-! ## Claim theorems -/

/-- Claim C4: the snapshot built by `parseCerts` maps each probed `kid` to
the last list entry with `use = "sig"`, `kty = "RSA"` and that `kid`
(entries failing the filter are dropped, later duplicates win), and every
stored key satisfies the filter. -/
theorem parseCerts_filter (res : Jwks) (cacheAge now : Int) (kid : String) :
    (parseCerts res cacheAge now).Keys kid = lastSigRSA kid res.Keys ∧
    (∀ k, (parseCerts res cacheAge now).Keys kid = some k →
      k.Use = "sig" ∧ k.Kty = "RSA" ∧ k.Kid = kid) := by
  have hfold : (parseCerts res cacheAge now).Keys kid = lastSigRSA kid res.Keys := by
    show res.Keys.foldl _ KeyMap.empty kid = _
    rw [foldl_sigRSA kid res.Keys KeyMap.empty]
    cases lastSigRSA kid res.Keys <;> rfl
  exact ⟨hfold, fun k hk => lastSigRSA_props kid res.Keys k (hfold ▸ hk)⟩

/-- Witness for C4 at the spec's mixed example list: only the RSA signing
key with kid "A" is retained. -/
theorem parseCerts_filter_witness :
    (parseCerts exJwks (3600 * second) 100).Keys "A" = some exKeyA ∧
    (parseCerts exJwks (3600 * second) 100).Keys "B" = none ∧
    (parseCerts exJwks (3600 * second) 100).Keys "C" = none ∧
    exKeyA.Use = "sig" ∧ exKeyA.Kty = "RSA" ∧ exKeyA.Kid = "A" := by
  refine ⟨?_, ?_, ?_, ?_⟩
  · exact ((parseCerts_filter exJwks (3600 * second) 100 "A").1).trans (by decide)
  · exact ((parseCerts_filter exJwks (3600 * second) 100 "B").1).trans (by decide)
  · exact ((parseCerts_filter exJwks (3600 * second) 100 "C").1).trans (by decide)
  · exact (parseCerts_filter exJwks (3600 * second) 100 "A").2 exKeyA
      (((parseCerts_filter exJwks (3600 * second) 100 "A").1).trans (by decide))

/-- Claim C1: while the cached snapshot is present and strictly fresher
than the clock, `GetKeys` returns exactly that snapshot, leaves the
receiver untouched and performs no fetch; repeating the call while still
fresh yields the identical snapshot again. -/
theorem getKeys_fresh_cache_hit (j : JSONWebKeys) (c : Certs) (now now2 : Int)
    (w w2 : World) (hc : j.cachedCerts = some c)
    (hfresh : now < c.Expiry) (hfresh2 : now2 < c.Expiry) :
    (GetKeys j now w).result = .ok c ∧
    (GetKeys j now w).state = j ∧
    (GetKeys j now w).fetched = false ∧
    (GetKeys (GetKeys j now w).state now2 w2).result = .ok c ∧
    (GetKeys (GetKeys j now w).state now2 w2).fetched = false := by
  have h1 : GetKeys j now w = ⟨.ok c, j, false⟩ := by
    unfold GetKeys
    rw [hc]
    show (if now < c.Expiry then (⟨.ok c, j, false⟩ : GetKeysResult)
          else refreshKeys j w) = _
    rw [if_pos hfresh]
  have h2 : GetKeys j now2 w2 = ⟨.ok c, j, false⟩ := by
    unfold GetKeys
    rw [hc]
    show (if now2 < c.Expiry then (⟨.ok c, j, false⟩ : GetKeysResult)
          else refreshKeys j w2) = _
    rw [if_pos hfresh2]
  rw [h1]
  exact ⟨rfl, rfl, rfl, by rw [h2], by rw [h2]⟩

/-- Witness for C1: a cached snapshot expiring at 10, read at instants 3
and 4. -/
theorem getKeys_fresh_cache_hit_witness :
    (GetKeys exClient 3 exWorldGetFail).result = .ok exCerts ∧
    (GetKeys exClient 3 exWorldGetFail).state = exClient ∧
    (GetKeys exClient 3 exWorldGetFail).fetched = false ∧
    (GetKeys (GetKeys exClient 3 exWorldGetFail).state 4 exWorldGetFail).result = .ok exCerts ∧
    (GetKeys (GetKeys exClient 3 exWorldGetFail).state 4 exWorldGetFail).fetched = false :=
  getKeys_fresh_cache_hit exClient exCerts 3 4 exWorldGetFail exWorldGetFail
    rfl (by decide) (by decide)

/-- Claim C2: when the refresh path runs and `fetchJWKS` fails, `GetKeys`
returns that very error and the `cachedCerts` field is left exactly as it
was (the parse step, `parseCerts`, cannot fail at all in this code). -/
theorem getKeys_failed_refresh (j : JSONWebKeys) (now : Int) (w : World) (e : GoError)
    (hstale : cacheStale j now) (herr : (fetchJWKS j w).1 = .error e) :
    (GetKeys j now w).result = .error e ∧
    (GetKeys j now w).state.cachedCerts = j.cachedCerts := by
  have hre : GetKeys j now w = refreshKeys j w := by
    unfold GetKeys
    cases hcc : j.cachedCerts with
    | none => rfl
    | some c =>
      show (if now < c.Expiry then (⟨.ok c, j, false⟩ : GetKeysResult)
            else refreshKeys j w) = _
      rw [if_neg (hstale c hcc)]
  rcases hfw : fetchJWKS j w with ⟨r, j2⟩
  have hr : r = .error e := by
    rw [hfw] at herr
    exact herr
  subst hr
  have hcc2 : j2.cachedCerts = j.cachedCerts := by
    have hx := fetchJWKS_cachedCerts j w
    rw [hfw] at hx
    exact hx
  have hrk : refreshKeys j w = ⟨.error e, j2, true⟩ := by
    unfold refreshKeys
    rw [hfw]
  rw [hre, hrk]
  exact ⟨rfl, hcc2⟩

/-- Witness for C2: a snapshot expired at 10, read at instant 10, with a
failing transport: the error surfaces and the stale snapshot stays
cached. -/
theorem getKeys_failed_refresh_witness :
    (GetKeys exClient 10 exWorldGetFail).result
        = .error (.getErr "dial tcp: connection refused") ∧
    (GetKeys exClient 10 exWorldGetFail).state.cachedCerts = some exCerts := by
  have h := getKeys_failed_refresh exClient 10 exWorldGetFail
    (.getErr "dial tcp: connection refused")
    (fun c hcc => by rw [← Option.some.inj hcc]; decide) rfl
  exact ⟨h.1, h.2.trans rfl⟩

/-- Claim C5: `GetKey` forwards any `GetKeys` error unchanged (and such an
error is never the key-not-found value), returns the key-not-found error
exactly when the kid is absent from the snapshot, and returns the mapped
key with no error when present. -/
theorem getKey_lookup (j : JSONWebKeys) (kid : String) (now : Int) (w : World) :
    (∀ e, (GetKeys j now w).result = .error e →
      (GetKey j kid now w).1 = .error e ∧ e ≠ .keyNotFound) ∧
    (∀ certs, (GetKeys j now w).result = .ok certs → certs.Keys kid = none →
      (GetKey j kid now w).1 = .error .keyNotFound) ∧
    (∀ certs k, (GetKeys j now w).result = .ok certs → certs.Keys kid = some k →
      (GetKey j kid now w).1 = .ok k) := by
  refine ⟨?_, ?_, ?_⟩
  · intro e he
    refine ⟨?_, fetchJWKS_error_kind j w e (getKeys_error_from_fetch j now w e he)⟩
    unfold GetKey
    dsimp only
    rw [he]
  · intro certs hok hnone
    unfold GetKey
    dsimp only
    rw [hok]
    dsimp only
    rw [hnone]
  · intro certs k hok hsome
    unfold GetKey
    dsimp only
    rw [hok]
    dsimp only
    rw [hsome]

/-- Witness for C5: hit, miss and transport-failure lookups against the
example client. -/
theorem getKey_lookup_witness :
    (GetKey exClient "A" 3 exWorldGetFail).1 = .ok exKeyA ∧
    (GetKey exClient "unknown-kid" 3 exWorldGetFail).1 = .error .keyNotFound ∧
    (GetKey exClient "A" 10 exWorldGetFail).1
        = .error (.getErr "dial tcp: connection refused") ∧
    GoError.getErr "dial tcp: connection refused" ≠ .keyNotFound := by
  refine ⟨?_, ?_, ?_, ?_⟩
  · exact (getKey_lookup exClient "A" 3 exWorldGetFail).2.2 exCerts exKeyA rfl (by decide)
  · exact (getKey_lookup exClient "unknown-kid" 3 exWorldGetFail).2.1 exCerts rfl (by decide)
  · exact ((getKey_lookup exClient "A" 10 exWorldGetFail).1 _ rfl).1
  · exact ((getKey_lookup exClient "A" 10 exWorldGetFail).1 _ rfl).2

/-- Claim C6: the expiry of a snapshot built by `parseCerts` is exactly the
`time.Now()` value read at snapshot construction plus the TTL — the `now`
parameter here is the construction-time clock reading, which `GetKeys`
supplies from the world at parse time, not from the clock reading that
decided freshness. -/
theorem parseCerts_expiry (res : Jwks) (cacheAge now : Int) :
    (parseCerts res cacheAge now).Expiry = now + cacheAge := rfl

/-- Claim C7: `PEM` returns the empty string on an empty certificate
chain, and otherwise wraps exactly the first certificate, with no trailing
newline. -/
theorem pem_format (k : Key) :
    (k.X5c = [] → k.PEM = "") ∧
    (∀ c rest, k.X5c = c :: rest →
      k.PEM = "-----BEGIN CERTIFICATE-----\n" ++ c ++ "\n-----END CERTIFICATE-----") := by
  constructor
  · intro h
    simp [Key.PEM, h]
  · intro c rest h
    simp [Key.PEM, h]

/-- Witness for C7 at the spec's example: `X5c = ["AVERYREALKEY"]` and
`X5c = []`. -/
theorem pem_format_witness :
    exKeyA.PEM = "-----BEGIN CERTIFICATE-----\nAVERYREALKEY\n-----END CERTIFICATE-----" ∧
    exKeyB.PEM = "" :=
  ⟨(pem_format exKeyA).2 "AVERYREALKEY" [] rfl, (pem_format exKeyB).1 rfl⟩

/-- Counterexample to C8 as stated: a valid unpadded-base64url `e` field
decoding to 2^63 does not become the exponent 2^63 — `Int64()` truncates
to the low 64 bits two's-complement, giving -2^63. -/
theorem rsa_exponent_truncated :
    rawURLDecode exKeyBigE.E.toList = some [128, 0, 0, 0, 0, 0, 0, 0] ∧
    (bytesToNat [128, 0, 0, 0, 0, 0, 0, 0] : Int) = 2 ^ 63 ∧
    exKeyBigE.RSA = some { N := 65537, E := -(2 ^ 63) } ∧
    (-(2 ^ 63) : Int) ≠ 2 ^ 63 := by
  refine ⟨by decide, by decide, by decide, by decide⟩

/-- Claim C8 (amended): when both `n` and `e` decode as unpadded
base64url (with `\r`/`\n` ignored, as Go's decoder does), `RSA` succeeds;
the modulus is the big-endian integer of the decoded `n` bytes, and the
exponent is the low-64-bit two's-complement reading of the decoded `e`
value — equal to that value whenever it is below 2^63.  If either field
fails to decode, the conversion aborts. -/
theorem rsa_decode (k : Key) :
    (∀ nB eB, rawURLDecode k.N.toList = some nB → rawURLDecode k.E.toList = some eB →
      k.RSA = some { N := bytesToNat nB, E := int64ofLow64 (bytesToNat eB) } ∧
      (bytesToNat eB < 2 ^ 63 → int64ofLow64 (bytesToNat eB) = (bytesToNat eB : Int))) ∧
    (rawURLDecode k.N.toList = none → k.RSA = none) ∧
    (rawURLDecode k.E.toList = none → k.RSA = none) := by
  refine ⟨?_, ?_, ?_⟩
  · intro nB eB hn he
    constructor
    · unfold Key.RSA
      rw [hn]
      dsimp only
      rw [he]
    · intro hlt
      unfold int64ofLow64
      rw [Nat.mod_eq_of_lt (lt_trans hlt (by norm_num))]
      rw [if_pos hlt]
  · intro hn
    unfold Key.RSA
    rw [hn]
  · intro he
    unfold Key.RSA
    cases hn : rawURLDecode k.N.toList with
    | none => rfl
    | some nB =>
      dsimp only
      rw [he]

/-- Witness for C8 (amended): the standard exponent `AQAB` (65537), and
the same exponent with an embedded newline, which the decoder skips as
Go's does. -/
theorem rsa_decode_witness :
    exKeyA.RSA = some { N := 65537, E := 65537 } ∧
    exKeyNewlineE.RSA = some { N := 65537, E := 65537 } ∧
    bytesToNat [1, 0, 1] < 2 ^ 63 := by
  have h := (rsa_decode exKeyA).1 [1, 0, 1] [1, 0, 1] (by decide) (by decide)
  have h2 := (rsa_decode exKeyNewlineE).1 [1, 0, 1] [1, 0, 1] (by decide) (by decide)
  exact ⟨h.1.trans (by decide), h2.1.trans (by decide), by decide⟩

/-- Counterexample to C10 as stated: a transport failure on a fresh client
leaves `DefaultCacheAge` at zero — the 10-hour defaulting has not happened
"before any error can occur"; only the `Client` defaulting has. -/
theorem getKeys_transport_error_keeps_defaultCacheAge :
    (GetKeys exFreshClient 0 exWorldGetFail).result
        = .error (.getErr "dial tcp: connection refused") ∧
    (GetKeys exFreshClient 0 exWorldGetFail).state.DefaultCacheAge = 0 ∧
    (GetKeys exFreshClient 0 exWorldGetFail).state.Client = some ⟨10 * second⟩ :=
  ⟨rfl, rfl, rfl⟩

/-- Claim C10 (amended): on the refresh path, a nil `Client` is replaced
by the default 10-second-timeout client before anything can fail, and a
non-nil one is kept; `DefaultCacheAge` is rewritten (zero becoming 10
hours) only after the HTTP GET succeeds, so a transport failure leaves it
unchanged while parse/decode failures occur after the rewrite; a failed
refresh never touches `cachedCerts`. -/
theorem getKeys_refresh_mutations (j : JSONWebKeys) (now : Int) (w : World)
    (hstale : cacheStale j now) :
    (j.Client = none → (GetKeys j now w).state.Client = some ⟨10 * second⟩) ∧
    (j.Client ≠ none → (GetKeys j now w).state.Client = j.Client) ∧
    ((∃ msg, w.getResult = .error msg) →
      (GetKeys j now w).state.DefaultCacheAge = j.DefaultCacheAge) ∧
    (∀ resp, w.getResult = .ok resp →
      (GetKeys j now w).state.DefaultCacheAge
        = if j.DefaultCacheAge = 0 then 10 * hour else j.DefaultCacheAge) ∧
    (∀ e, (GetKeys j now w).result = .error e →
      (GetKeys j now w).state.cachedCerts = j.cachedCerts) := by
  have hre := getKeys_stale_eq_refresh j now w hstale
  have hcl := (refreshKeys_state_fields j w).1
  have hdca := (refreshKeys_state_fields j w).2
  refine ⟨?_, ?_, ?_, ?_, ?_⟩
  · intro h0
    rw [hre, hcl, fetchJWKS_client, if_pos h0]
  · intro h0
    rw [hre, hcl, fetchJWKS_client, if_neg h0]
  · rintro ⟨msg, hmsg⟩
    rw [hre, hdca, fetchJWKS_defaultCacheAge_err j w msg hmsg]
  · intro resp hresp
    rw [hre, hdca, fetchJWKS_defaultCacheAge_ok j w resp hresp]
  · intro e he
    rw [hre] at he ⊢
    unfold refreshKeys at he ⊢
    rcases hfw : fetchJWKS j w with ⟨r, j2⟩
    cases r with
    | error e2 =>
      dsimp only
      have hx := fetchJWKS_cachedCerts j w
      rw [hfw] at hx
      exact hx
    | ok p =>
      rcases p with ⟨res, age⟩
      rw [hfw] at he
      dsimp only at he
      cases he

/-- Witness for C10 (amended): a successful GET on a fresh client rewrites
`DefaultCacheAge` to 10 hours and installs the default client. -/
theorem getKeys_refresh_mutations_witness :
    (GetKeys exFreshClient 0 exWorldOk).state.DefaultCacheAge = 10 * hour ∧
    (GetKeys exFreshClient 0 exWorldOk).state.Client = some ⟨10 * second⟩ := by
  have h := getKeys_refresh_mutations exFreshClient 0 exWorldOk (fun c hcc => by cases hcc)
  exact ⟨(h.2.2.2.1 { cacheControl := "", body := .ok { Keys := [] } } rfl).trans rfl,
    h.1 rfl⟩

end Jwk
